import Mathlib

/-!
Shallow embedding of the UNO hand engine of this repository
(modules `src/model/deck.ts`, `src/model/handState.ts`, `src/model/hand.ts`)
together with theorems settling the specification claims about it.

Cards are immutable values; decks and hands are lists with index 0 as the
top/next-to-deal position; the injected shuffler is modelled as an explicit
function parameter.
-/

namespace Uno

/-- Card colors (`deck.ts`, `type Color`). -/
inductive Color
  | RED
  | BLUE
  | GREEN
  | YELLOW
deriving DecidableEq, Repr

/-- Card types (`deck.ts`, `type CardType`); the source string "WILD DRAW" is
`WILD_DRAW` here. -/
inductive CardType
  | NUMBERED
  | SKIP
  | REVERSE
  | DRAW
  | WILD
  | WILD_DRAW
deriving DecidableEq, Repr

/-- A card (`deck.ts`, `interface Card`): `color` is absent on wilds still in
hand, `number` is present only on numbered cards. -/
structure Card where
  type : CardType
  color : Option Color := none
  number : Option Nat := none
deriving DecidableEq, Repr

/-- An injected shuffler (`Shuffler<Card>` from `random_utils`): a function on
card lists, swappable for deterministic fixtures. -/
def Shuffler : Type := List Card → List Card

/-- Deal the top card (`deck.ts` `dealCard`): returns the first card and the
rest, or no card and the unchanged (empty) deck. -/
def dealCard : List Card → Option Card × List Card
  | [] => (none, [])
  | c :: rest => (some c, rest)

/-- Append a card at the bottom of a deck (`deck.ts` `addToBottom`). -/
def addToBottom (deck : List Card) (card : Card) : List Card := deck ++ [card]

/-- The turn-index arithmetic `(i + d + n) % n` (on JavaScript numbers) used
throughout `handState.ts` and `hand.ts` for turn advancement. -/
def stepIdx (i : Nat) (d : Int) (n : Nat) : Nat :=
  (((i : Int) + d + n) % (n : Int)).toNat

namespace HS

/-- The hand state of `handState.ts` (`interface HandState`). The
`onEndCallbacks` field holds functions used only for side effects and is
omitted; `unoSaid : Set<number>` is a finite set of player indices. -/
structure HandState where
  players : List String
  dealer : Nat
  discardPile : List Card
  drawPile : List Card
  playerHands : List (List Card)
  currentPlayerIndex : Nat
  direction : Int
  hasEnded : Bool
  winner : Option Nat := none
  unoSaid : Finset Nat := ∅
  lastPlayedCard : Option Card := none
deriving DecidableEq

/-- `handState.ts` `nextTurn`. -/
def nextTurn (s : HandState) : HandState :=
  { s with currentPlayerIndex := stepIdx s.currentPlayerIndex s.direction s.players.length }

/-- `handState.ts` `reshuffleDeck`: reverses the discard pile, keeps its top
card as the sole discard, shuffles the remainder into a new draw pile and
appends the top card at the bottom of that pile as well.  The source calls
`shuffleDeck` with its default shuffler; the shuffler is the explicit
parameter `sh` here. -/
def reshuffleDeck (sh : Shuffler) (s : HandState) : HandState :=
  if s.discardPile.length ≤ 1 then s
  else
    match s.discardPile.reverse with
    | [] => s
    | top :: rest =>
      { s with
        drawPile := addToBottom (sh rest) top,
        discardPile := [top] }

/-- One iteration of the reducer inside `handState.ts` `drawCards`: deal a
card (reshuffling when the draw pile is empty) and append it to the hand of
the player at `currentPlayerIndex`. -/
def drawCardsStep (sh : Shuffler) (s : HandState) : HandState :=
  let d1 := dealCard s.drawPile
  let s1 : HandState := { s with drawPile := d1.2 }
  let r :=
    match d1.1 with
    | none =>
      let s2 := reshuffleDeck sh s1
      let d2 := dealCard s2.drawPile
      (d2.1, { s2 with drawPile := d2.2 })
    | some c => (some c, s1)
  match r.1 with
  | none => r.2
  | some card =>
    let s3 := r.2
    { s3 with playerHands :=
        (s3.playerHands.set s3.currentPlayerIndex
          ((s3.playerHands.getD s3.currentPlayerIndex []) ++ [card])) }

/-- `handState.ts` `drawCards`: the reducer above applied `count` times. -/
def drawCards (sh : Shuffler) (s : HandState) (count : Nat) : HandState :=
  (drawCardsStep sh)^[count] s

/-- `handState.ts` `isValidPlay`.  The source excludes the played card itself
by object identity (`c !== card`); structural inequality is used here, which
agrees with it whenever the played card is a colorless wild and the reference
color is an actual color (the situations the claims quantify over). -/
def isValidPlay (s : HandState) (card : Card) : Bool :=
  match s.lastPlayedCard with
  | none => true
  | some last =>
    if card.type = CardType.WILD then true
    else if card.type = CardType.WILD_DRAW then
      ! (s.playerHands.getD s.currentPlayerIndex []).any
          (fun c => decide (c ≠ card) && decide (c.color = last.color))
    else
      decide (card.color = last.color) || decide (card.type = last.type) ||
        (decide (card.type = CardType.NUMBERED) && decide (last.type = CardType.NUMBERED)
          && decide (card.number = last.number))

/-- `handState.ts` `applyCardEffect`.  Note that in the DRAW / WILD DRAW case
the source calls `drawCards` while `currentPlayerIndex` is still the acting
player, and only afterwards moves the index to the computed target. -/
def applyCardEffect (sh : Shuffler) (s : HandState) (card : Card) : HandState :=
  let s0 : HandState := { s with lastPlayedCard := some card }
  let s1 :=
    match card.type with
    | CardType.SKIP => nextTurn s0
    | CardType.REVERSE =>
      let sr : HandState := { s0 with direction := s0.direction * -1 }
      if sr.players.length = 2 then nextTurn sr else sr
    | CardType.DRAW | CardType.WILD_DRAW =>
      let targetPlayer := (nextTurn s0).currentPlayerIndex
      let sd := drawCards sh s0 (if card.type = CardType.DRAW then 2 else 4)
      nextTurn { sd with currentPlayerIndex := targetPlayer }
    | _ => s0
  if card.type = CardType.DRAW ∨ card.type = CardType.WILD_DRAW then s1 else nextTurn s1

/-- `handState.ts` `play`: errors carry the thrown messages; the result pairs
the new state with the played card.  Card indices are natural numbers (the
source additionally rejects negative indices). -/
def play (sh : Shuffler) (s : HandState) (cardIndex : Nat) (chosenColor : Option Color) :
    Except String (HandState × Card) :=
  if s.hasEnded then .error ("The hand has ended")
  else
    let hand := s.playerHands.getD s.currentPlayerIndex []
    match hand.get? cardIndex with
    | none => .error ("Invalid card index")
    | some card =>
      if ¬ isValidPlay s card then .error ("Invalid play")
      else if (card.type = CardType.WILD ∨ card.type = CardType.WILD_DRAW) ∧
          chosenColor = none then
        .error ("Must choose a color for wild cards")
      else if card.color ≠ none ∧ chosenColor ≠ none then
        .error ("Cannot choose color for non-wild cards")
      else
        let playedCard :=
          match chosenColor with
          | some c => { card with color := some c }
          | none => card
        let newHand := hand.eraseIdx cardIndex
        let s1 : HandState :=
          { s with
            playerHands := s.playerHands.set s.currentPlayerIndex newHand,
            discardPile := addToBottom s.discardPile playedCard,
            lastPlayedCard := some playedCard }
        if newHand.length = 0 then
          .ok ({ s1 with hasEnded := true, winner := some s.currentPlayerIndex }, playedCard)
        else
          .ok (applyCardEffect sh s1 playedCard, playedCard)

/-- `handState.ts` `draw`. -/
def draw (sh : Shuffler) (s : HandState) : Except String HandState :=
  if s.hasEnded then .error ("The hand has ended")
  else
    let d1 := dealCard s.drawPile
    let s0 : HandState := { s with drawPile := d1.2 }
    let r :=
      match d1.1 with
      | none =>
        let sr := reshuffleDeck sh s0
        let d2 := dealCard sr.drawPile
        (d2.1, { sr with drawPile := d2.2 })
      | some c => (some c, s0)
    match r.1 with
    | none => .ok r.2
    | some card =>
      let s1 := r.2
      let s2 : HandState :=
        { s1 with playerHands :=
            (s1.playerHands.set s1.currentPlayerIndex
              ((s1.playerHands.getD s1.currentPlayerIndex []) ++ [card])) }
      .ok (if isValidPlay s2 card then s2 else nextTurn s2)

/-- `handState.ts` `catchUnoFailure`.  The accused index is a natural number
(the source additionally rejects negative indices).  Note that the success
branch deals the four penalty cards via `drawCards`, i.e. to the player at
`currentPlayerIndex`, before restoring that index and recording the accused. -/
def catchUnoFailure (sh : Shuffler) (s : HandState) (accuser accused : Nat) :
    Except String (HandState × Bool) :=
  if s.hasEnded then .error ("The hand has ended")
  else if s.players.length ≤ accused then .error ("Invalid accused player index")
  else if accused ∈ s.unoSaid ∨ (s.playerHands.getD accused []).length ≠ 1 then
    .ok (s, false)
  else
    let nextPlayer := stepIdx accused s.direction s.players.length
    if s.currentPlayerIndex = nextPlayer then
      let currentPlayer := s.currentPlayerIndex
      let s1 := drawCards sh s 4
      .ok ({ s1 with currentPlayerIndex := currentPlayer,
                     unoSaid := insert accused s1.unoSaid }, true)
    else .ok (s, false)

/-- `handState.ts` `calculateScore` (private helper). -/
def calculateScore (s : HandState) : Nat :=
  if ¬ s.hasEnded ∨ s.winner = none then 0
  else
    s.playerHands.enum.foldl
      (fun total p =>
        if s.winner = some p.1 then total
        else
          total + p.2.foldl
            (fun cardTotal card =>
              match card.type with
              | CardType.NUMBERED => cardTotal + card.number.getD 0
              | CardType.SKIP => cardTotal + 20
              | CardType.REVERSE => cardTotal + 20
              | CardType.DRAW => cardTotal + 20
              | CardType.WILD => cardTotal + 50
              | CardType.WILD_DRAW => cardTotal + 50) 0) 0

/-- `handState.ts` `score`. -/
def score (s : HandState) : Option Nat :=
  if s.hasEnded then some (calculateScore s) else none

/-- `handState.ts` `canPlay` query; the card index is an arbitrary integer. -/
def canPlay (s : HandState) (cardIndex : Int) : Bool :=
  if s.hasEnded then false
  else
    let hand := s.playerHands.getD s.currentPlayerIndex []
    if cardIndex < 0 ∨ (hand.length : Int) ≤ cardIndex then false
    else
      match hand.get? cardIndex.toNat with
      | none => false
      | some card => isValidPlay s card

/-- Total number of cards tracked by a hand state: draw pile, discard pile and
all player hands together (the quantity the specification fixes at 108). -/
def totalCards (s : HandState) : Nat :=
  s.drawPile.length + s.discardPile.length + (s.playerHands.map List.length).sum

end HS

namespace HandM

/-- The hand state of `hand.ts` (`interface Hand`); the source field
`_shuffler` is `shuffler` here. -/
structure Hand where
  playerCount : Nat
  players : List String
  hands : List (List Card)
  drawPile : List Card
  discardPile : List Card
  dealer : Nat
  playerInTurn : Option Nat
  currentColor : Color
  direction : Int
  saidUno : Finset Nat
  shuffler : Shuffler

/-- `hand.ts` `topOfDiscard`: `discardPile[discardPile.length - 1]`; on an
empty pile the source yields `undefined`, modelled as a bare wild card (the
callers never reach that case). -/
def topOfDiscard (h : Hand) : Card :=
  (h.discardPile.getLast?).getD { type := CardType.WILD }

/-- `hand.ts` `canPlay`: bounds- and turn-guarded legality of playing the
card at `cardIdx` of the hand of the player in turn. -/
def canPlay (cardIdx : Int) (h : Hand) : Bool :=
  match h.playerInTurn with
  | none => false
  | some p =>
    let playerHand := h.hands.getD p []
    if cardIdx < 0 ∨ (playerHand.length : Int) ≤ cardIdx then false
    else
      match playerHand.get? cardIdx.toNat with
      | none => false
      | some card =>
        let top := topOfDiscard h
        if card.type = CardType.WILD then true
        else if card.type = CardType.WILD_DRAW then
          ! playerHand.any (fun c => decide (c.color = some h.currentColor))
        else if card.type = CardType.REVERSE then
          decide (card.color = some h.currentColor) || decide (top.type = CardType.REVERSE)
        else if card.type = CardType.SKIP ∨ card.type = CardType.DRAW then
          decide (card.color = some h.currentColor) || decide (card.type = top.type)
        else if card.type = CardType.NUMBERED then
          decide (card.color = some h.currentColor) ||
            (decide (top.type = CardType.NUMBERED) && decide (card.number = top.number))
        else false

/-- `hand.ts` `hasEnded`: the hand is over when nobody is in turn or some
player's hand is empty. -/
def hasEnded (h : Hand) : Bool :=
  decide (h.playerInTurn = none) || h.hands.any (fun hd => decide (hd.length = 0))

/-- `hand.ts` `winner`: the first player with an empty hand, if any. -/
def winner (h : Hand) : Option Nat :=
  h.hands.findIdx? (fun hd => decide (hd.length = 0))

/-- `hand.ts` `play`.  The `Illegal play` fallbacks on the two inner matches
are unreachable: `canPlay` has already established a player in turn and a
card at the index.  When a DRAW / WILD DRAW empties the acting player's hand,
the forced cards are dealt to the next player before the hand ends
(`playerInTurn` becomes `undefined`). -/
def play (cardIdx : Int) (chosenColor : Option Color) (h : Hand) : Except String Hand :=
  if ¬ canPlay cardIdx h then .error ("Illegal play")
  else
    match h.playerInTurn with
    | none => .error ("Illegal play")
    | some currentPlayer =>
      let playerHand := h.hands.getD currentPlayer []
      match playerHand.get? cardIdx.toNat with
      | none => .error ("Illegal play")
      | some card =>
        if (card.type = CardType.WILD ∨ card.type = CardType.WILD_DRAW) ∧
            chosenColor = none then
          .error ("Must specify color for wild card")
        else if card.color ≠ none ∧ chosenColor ≠ none then
          .error ("Cannot specify color for colored card")
        else
          let newHands0 := h.hands.set currentPlayer (playerHand.eraseIdx cardIdx.toNat)
          let needsShuffle :=
            (card.type = CardType.DRAW ∧ h.drawPile.length < 2) ∨
              (card.type = CardType.WILD_DRAW ∧ h.drawPile.length < 4)
          let pileB := if needsShuffle then h.drawPile ++ h.shuffler h.discardPile else h.drawPile
          let discB := if needsShuffle then [card] else h.discardPile ++ [card]
          let newColor :=
            match chosenColor with
            | some c => c
            | none =>
              match card.color with
              | some c => c
              | none => h.currentColor
          if (card.type = CardType.DRAW ∨ card.type = CardType.WILD_DRAW) ∧
              (newHands0.getD currentPlayer []).length = 0 then
            let targetPlayer := stepIdx currentPlayer h.direction h.playerCount
            let cardCount := if card.type = CardType.DRAW then 2 else 4
            let newHands1 :=
              newHands0.set targetPlayer
                ((newHands0.getD targetPlayer []) ++ pileB.take cardCount)
            .ok { h with
              hands := newHands1,
              drawPile := pileB.drop cardCount,
              discardPile := discB,
              playerInTurn := none,
              currentColor := newColor }
          else if (newHands0.getD currentPlayer []).length = 0 then
            .ok { h with
              hands := newHands0,
              drawPile := pileB,
              discardPile := discB,
              playerInTurn := none,
              currentColor := newColor }
          else if card.type = CardType.REVERSE then
            let dir := h.direction * -1
            let nextPlayer :=
              if h.playerCount = 2 then currentPlayer
              else stepIdx currentPlayer dir h.playerCount
            .ok { h with
              hands := newHands0,
              drawPile := pileB,
              discardPile := discB,
              playerInTurn := some nextPlayer,
              direction := dir,
              currentColor := newColor }
          else if card.type = CardType.SKIP then
            .ok { h with
              hands := newHands0,
              drawPile := pileB,
              discardPile := discB,
              playerInTurn := some (stepIdx currentPlayer (2 * h.direction) h.playerCount),
              currentColor := newColor }
          else if card.type = CardType.DRAW then
            let targetPlayer := stepIdx currentPlayer h.direction h.playerCount
            let newHands1 :=
              newHands0.set targetPlayer ((newHands0.getD targetPlayer []) ++ pileB.take 2)
            .ok { h with
              hands := newHands1,
              drawPile := pileB.drop 2,
              discardPile := discB,
              playerInTurn := some (stepIdx currentPlayer (2 * h.direction) h.playerCount),
              currentColor := newColor }
          else if card.type = CardType.WILD_DRAW then
            let targetPlayer := stepIdx currentPlayer h.direction h.playerCount
            let newHands1 :=
              newHands0.set targetPlayer ((newHands0.getD targetPlayer []) ++ pileB.take 4)
            .ok { h with
              hands := newHands1,
              drawPile := pileB.drop 4,
              discardPile := discB,
              playerInTurn := some (stepIdx currentPlayer (2 * h.direction) h.playerCount),
              currentColor := newColor }
          else
            .ok { h with
              hands := newHands0,
              drawPile := pileB,
              discardPile := discB,
              playerInTurn := some (stepIdx currentPlayer h.direction h.playerCount),
              currentColor := newColor }

end HandM

/-! Specification-side definitions, written from the claims' wording, used to
compare the embedded code against. -/

/-- The inner reducer of `calculateScore`, named for use in proofs: it is
definitionally the arrow function folded over a player's hand. -/
def cardReducer (cardTotal : Nat) (card : Card) : Nat :=
  match card.type with
  | CardType.NUMBERED => cardTotal + card.number.getD 0
  | CardType.SKIP => cardTotal + 20
  | CardType.REVERSE => cardTotal + 20
  | CardType.DRAW => cardTotal + 20
  | CardType.WILD => cardTotal + 50
  | CardType.WILD_DRAW => cardTotal + 50

/-- Spec-side card value for scoring: a NUMBERED card counts as its number,
SKIP / REVERSE / DRAW as 20, WILD / WILD_DRAW as 50. -/
def specCardPoints (c : Card) : Nat :=
  match c.type with
  | CardType.NUMBERED => c.number.getD 0
  | CardType.SKIP => 20
  | CardType.REVERSE => 20
  | CardType.DRAW => 20
  | CardType.WILD => 50
  | CardType.WILD_DRAW => 50

/-- Spec-side score of an ended hand with winner `w`: the sum over all
non-winning players' remaining cards. -/
def specScore (s : HS.HandState) (w : Nat) : Nat :=
  ((s.playerHands.enum.filter (fun p => decide (p.1 ≠ w))).map
    (fun p => (p.2.map specCardPoints).sum)).sum

/-- The state of the current player's hand right after being dealt card `c`,
with `rest` left on the draw pile: the reference state against which the
"drawn card immediately playable" check of `draw` is made.  (Reducible so
that it unfolds to the record produced by `draw` itself.) -/
abbrev afterDraw (s : HS.HandState) (c : Card) (rest : List Card) : HS.HandState :=
  { s with
    drawPile := rest,
    playerHands := (s.playerHands.set s.currentPlayerIndex
      ((s.playerHands.getD s.currentPlayerIndex []) ++ [c])) }

/-! Concrete fixtures used by witnesses and counterexamples. -/

/-- The identity shuffler (a legal shuffler: it permutes trivially). -/
def idShuffler : Shuffler := fun l => l

/-- A red 1 card. -/
def cardR1 : Card := { type := CardType.NUMBERED, color := some Color.RED, number := some 1 }

/-- A red 2 card. -/
def cardR2 : Card := { type := CardType.NUMBERED, color := some Color.RED, number := some 2 }

/-- A blue 3 card. -/
def cardB3 : Card := { type := CardType.NUMBERED, color := some Color.BLUE, number := some 3 }

/-- A blue 7 card. -/
def cardB7 : Card := { type := CardType.NUMBERED, color := some Color.BLUE, number := some 7 }

/-- A red DRAW card. -/
def cardRDraw : Card := { type := CardType.DRAW, color := some Color.RED }

/-- A red REVERSE card. -/
def cardRRev : Card := { type := CardType.REVERSE, color := some Color.RED }

/-- A wild-draw card (no color while in hand). -/
def cardWD : Card := { type := CardType.WILD_DRAW }

/-- A hand state about to reshuffle: empty draw pile, two cards on the
discard pile (`cardR2` on top). -/
def sReshuffle : HS.HandState :=
  { players := ["A", "B"],
    dealer := 0,
    discardPile := [cardR1, cardR2],
    drawPile := [],
    playerHands := [[cardB3], [cardB7]],
    currentPlayerIndex := 0,
    direction := 1,
    hasEnded := false,
    lastPlayedCard := some cardR2 }

/-- An ended hand state (player 0 won) in which player 1 still holds exactly
one card. -/
def sEnded : HS.HandState :=
  { players := ["A", "B"],
    dealer := 0,
    discardPile := [cardR1],
    drawPile := [cardR2],
    playerHands := [[], [cardB7]],
    currentPlayerIndex := 0,
    direction := 1,
    hasEnded := true,
    winner := some 0,
    lastPlayedCard := some cardR1 }

/-- An in-progress state in which player 0 is down to one card without having
declared uno, and player 1 (the next player) is in turn: a valid UNO catch
against player 0. -/
def sCatchable : HS.HandState :=
  { players := ["A", "B"],
    dealer := 0,
    discardPile := [cardR1],
    drawPile := [cardR2, cardB3, cardB7, cardR2],
    playerHands := [[cardRRev], [cardB7, cardB3]],
    currentPlayerIndex := 1,
    direction := 1,
    hasEnded := false,
    lastPlayedCard := some cardR1 }

/-- An in-progress state whose current player (player 0) holds a wild-draw
and a blue 3 against a red top card: no card of the current color. -/
def sWild : HS.HandState :=
  { players := ["A", "B"],
    dealer := 0,
    discardPile := [cardR1],
    drawPile := [cardR2, cardB3],
    playerHands := [[cardWD, cardB3], [cardB7]],
    currentPlayerIndex := 0,
    direction := 1,
    hasEnded := false,
    lastPlayedCard := some cardR1 }

/-- Like `sWild` but the current player also holds a red 2, a card of the
current color, which makes the wild-draw play illegal. -/
def sWildBlocked : HS.HandState :=
  { players := ["A", "B"],
    dealer := 0,
    discardPile := [cardR1],
    drawPile := [cardR2, cardB3],
    playerHands := [[cardWD, cardR2], [cardB7]],
    currentPlayerIndex := 0,
    direction := 1,
    hasEnded := false,
    lastPlayedCard := some cardR1 }

/-- A two-player in-progress state whose current player (player 0) can
legally play a red REVERSE on a red top card without emptying their hand. -/
def sRev : HS.HandState :=
  { players := ["A", "B"],
    dealer := 0,
    discardPile := [cardR1],
    drawPile := [cardR2, cardB3],
    playerHands := [[cardRRev, cardB3], [cardB7]],
    currentPlayerIndex := 0,
    direction := 1,
    hasEnded := false,
    lastPlayedCard := some cardR1 }

/-- A three-player variant of `sRev`. -/
def sRev3 : HS.HandState :=
  { players := ["A", "B", "C"],
    dealer := 0,
    discardPile := [cardR1],
    drawPile := [cardR2, cardB3],
    playerHands := [[cardRRev, cardB3], [cardB7], [cardB3]],
    currentPlayerIndex := 0,
    direction := 1,
    hasEnded := false,
    lastPlayedCard := some cardR1 }

/-- A `handState.ts` state in which the current player (player 0) holds only
a red DRAW card, legally playable on the red top card. -/
def sLastDraw : HS.HandState :=
  { players := ["A", "B"],
    dealer := 0,
    discardPile := [cardR1],
    drawPile := [cardR2, cardB3],
    playerHands := [[cardRDraw], [cardB7]],
    currentPlayerIndex := 0,
    direction := 1,
    hasEnded := false,
    lastPlayedCard := some cardR1 }

/-- The corresponding `hand.ts` state: player 0 in turn holding only a red
DRAW card against current color red. -/
def hLastDraw : HandM.Hand :=
  { playerCount := 2,
    players := ["A", "B"],
    hands := [[cardRDraw], [cardB7]],
    drawPile := [cardR2, cardB3],
    discardPile := [cardR1],
    dealer := 0,
    playerInTurn := some 0,
    currentColor := Color.RED,
    direction := 1,
    saidUno := ∅,
    shuffler := idShuffler }

/-- The state resulting from the valid catch at `sCatchable`: the four
penalty cards were dealt (to the player at `currentPlayerIndex`, see
`catchUnoFailure`) and player 0 is recorded in the uno set. -/
def sCaught : HS.HandState :=
  { players := ["A", "B"],
    dealer := 0,
    discardPile := [cardR1],
    drawPile := [],
    playerHands := [[cardRRev], [cardB7, cardB3, cardR2, cardB3, cardB7, cardR2]],
    currentPlayerIndex := 1,
    direction := 1,
    hasEnded := false,
    winner := none,
    unoSaid := insert 0 ∅,
    lastPlayedCard := some cardR1 }

end Uno

/-! Theorems.  The helper lemmas below are shared arithmetic facts about the
turn-index step; each claim is then settled by its own theorem. -/

namespace Uno

/-- Stepping by `+1`: `(i + 1 + n) % n = (i + 1) % n`. -/
theorem stepIdx_one (i n : Nat) : stepIdx i 1 n = (i + 1) % n := by
  unfold stepIdx
  have h1 : ((i : Int) + 1 + n) % (n : Int) = ((i : Int) + 1) % n := by
    simp [Int.add_emod]
  have h2 : ((i : Int) + 1) = ((i + 1 : Nat) : Int) := by push_cast; ring
  rw [h1, h2, ← Int.natCast_mod, Int.toNat_natCast]

/-- Stepping by `-1`: `(i - 1 + n) % n = (i + n - 1) % n`. -/
theorem stepIdx_neg_one (i n : Nat) (hn : 0 < n) : stepIdx i (-1) n = (i + n - 1) % n := by
  unfold stepIdx
  have h2 : ((i : Int) + -1 + n) = ((i + n - 1 : Nat) : Int) := by
    push_cast [Nat.cast_sub (by omega : 1 ≤ i + n)]
    ring
  rw [h2, ← Int.natCast_mod, Int.toNat_natCast]

/-- The stepped index is always in range. -/
theorem stepIdx_lt (i n : Nat) (d : Int) (hn : 0 < n) : stepIdx i d n < n := by
  unfold stepIdx
  have h1 : 0 ≤ ((i : Int) + d + n) % (n : Int) :=
    Int.emod_nonneg _ (by exact_mod_cast Nat.pos_iff_ne_zero.mp hn)
  have h2 : ((i : Int) + d + n) % (n : Int) < n :=
    Int.emod_lt_of_pos _ (by exact_mod_cast hn)
  omega

/-- With at least two players, stepping by one position moves to a different
player. -/
theorem stepIdx_ne (i n : Nat) (d : Int) (hd : d = 1 ∨ d = -1) (hi : i < n) (hn : 2 ≤ n) :
    stepIdx i d n ≠ i := by
  rcases hd with hd | hd <;> subst hd
  · rw [stepIdx_one]
    rcases Nat.lt_or_ge (i + 1) n with h | h
    · rw [Nat.mod_eq_of_lt h]; omega
    · have he : i + 1 = n := by omega
      rw [he, Nat.mod_self]; omega
  · rw [stepIdx_neg_one i n (by omega)]
    rcases Nat.eq_zero_or_pos i with h | h
    · subst h
      rw [Nat.mod_eq_of_lt (by omega)]; omega
    · have he : i + n - 1 = (i - 1) + n := by omega
      rw [he, Nat.add_mod_right, Nat.mod_eq_of_lt (by omega)]
      omega

/-- In a two-player hand, stepping twice in the same direction returns to the
same player. -/
theorem stepIdx_two_cycle (i : Nat) (d : Int) (hd : d = 1 ∨ d = -1) (hi : i < 2) :
    stepIdx (stepIdx i d 2) d 2 = i := by
  have h2 : i = 0 ∨ i = 1 := by omega
  rcases hd with hd | hd <;> subst hd <;> rcases h2 with h | h <;> subst h <;> decide

/-- `reshuffleDeck` only touches the two piles: every other field is kept. -/
theorem reshuffleDeck_preserves (sh : Shuffler) (s : HS.HandState) :
    (HS.reshuffleDeck sh s).players = s.players ∧
    (HS.reshuffleDeck sh s).hasEnded = s.hasEnded ∧
    (HS.reshuffleDeck sh s).unoSaid = s.unoSaid ∧
    (HS.reshuffleDeck sh s).currentPlayerIndex = s.currentPlayerIndex ∧
    (HS.reshuffleDeck sh s).playerHands = s.playerHands ∧
    (HS.reshuffleDeck sh s).direction = s.direction := by
  unfold HS.reshuffleDeck
  split
  · exact ⟨rfl, rfl, rfl, rfl, rfl, rfl⟩
  · split <;> exact ⟨rfl, rfl, rfl, rfl, rfl, rfl⟩

/-- One `drawCards` iteration only moves cards between the piles and the
current player's hand: players, termination flag, uno set and the player in
turn are kept. -/
theorem drawCardsStep_preserves (sh : Shuffler) (s : HS.HandState) :
    (HS.drawCardsStep sh s).players = s.players ∧
    (HS.drawCardsStep sh s).hasEnded = s.hasEnded ∧
    (HS.drawCardsStep sh s).unoSaid = s.unoSaid ∧
    (HS.drawCardsStep sh s).currentPlayerIndex = s.currentPlayerIndex := by
  unfold HS.drawCardsStep
  cases hdp : s.drawPile with
  | cons c rest => simp [dealCard]
  | nil =>
    have hp := reshuffleDeck_preserves sh ({ s with drawPile := [] })
    dsimp only [dealCard]
    cases h3 : (HS.reshuffleDeck sh { s with drawPile := [] }).drawPile with
    | nil =>
      simp only [h3, dealCard]
      exact ⟨hp.1, hp.2.1, hp.2.2.1, hp.2.2.2.1⟩
    | cons c2 rest2 =>
      simp only [h3, dealCard]
      exact ⟨hp.1, hp.2.1, hp.2.2.1, hp.2.2.2.1⟩

/-- `drawCards` preserves players, termination flag, uno set and the player
in turn. -/
theorem drawCards_preserves (sh : Shuffler) (s : HS.HandState) (count : Nat) :
    (HS.drawCards sh s count).players = s.players ∧
    (HS.drawCards sh s count).hasEnded = s.hasEnded ∧
    (HS.drawCards sh s count).unoSaid = s.unoSaid ∧
    (HS.drawCards sh s count).currentPlayerIndex = s.currentPlayerIndex := by
  induction count with
  | zero => exact ⟨rfl, rfl, rfl, rfl⟩
  | succ n ih =>
    unfold HS.drawCards at ih ⊢
    rw [Function.iterate_succ_apply']
    have hstep := drawCardsStep_preserves sh ((HS.drawCardsStep sh)^[n] s)
    exact ⟨hstep.1.trans ih.1, hstep.2.1.trans ih.2.1, hstep.2.2.1.trans ih.2.2.1,
      hstep.2.2.2.trans ih.2.2.2⟩

/-- C1. The claim asserts that the 108-card total is preserved by every
operation, including the internal reshuffle.  It is not: `reshuffleDeck`
keeps the top discard card as the sole discard *and* appends it to the bottom
of the new draw pile, so whenever it fires (empty draw pile, at least two
discarded cards) the tracked card count grows by one. -/
theorem reshuffle_creates_card (sh : Shuffler) (s : HS.HandState)
    (hsh : ∀ l, (sh l).length = l.length)
    (hpile : s.drawPile = []) (hdisc : 2 ≤ s.discardPile.length) :
    HS.totalCards (HS.reshuffleDeck sh s) = HS.totalCards s + 1 := by
  obtain ⟨top, rest, hr⟩ : ∃ top rest, s.discardPile.reverse = top :: rest := by
    cases h : s.discardPile.reverse with
    | nil =>
      have : s.discardPile = [] := by
        have := congrArg List.reverse h
        simpa using this
      rw [this] at hdisc
      simp at hdisc
    | cons a t => exact ⟨a, t, rfl⟩
  have hlen : s.discardPile.length = rest.length + 1 := by
    have := congrArg List.length hr
    simpa using this
  unfold HS.reshuffleDeck
  rw [if_neg (by omega), hr]
  unfold HS.totalCards addToBottom
  simp only [hpile, List.length_append, List.length_cons, List.length_nil, hsh]
  omega

/-- C1 witness: the general theorem applied to the concrete pre-reshuffle
state (total goes from 4 to 5 cards). -/
theorem reshuffle_creates_card_witness :
    HS.totalCards (HS.reshuffleDeck idShuffler sReshuffle) =
      HS.totalCards sReshuffle + 1 :=
  reshuffle_creates_card idShuffler sReshuffle (fun _ => rfl) rfl (by decide)

/-- C2. The claim asserts that reshuffle neither loses nor duplicates cards:
the new draw pile should be exactly the old discard pile minus its top card
(plus the old, here empty, draw pile).  At the concrete state `sReshuffle`
the code instead produces draw pile `[cardR1, cardR2]` while keeping
`cardR2` on the discard pile as well: the top card is duplicated and the
claimed multiset equation fails. -/
theorem reshuffle_duplicates_top_card :
    (HS.reshuffleDeck idShuffler sReshuffle).drawPile = [cardR1, cardR2] ∧
    (HS.reshuffleDeck idShuffler sReshuffle).discardPile = [cardR2] ∧
    ¬ ((HS.reshuffleDeck idShuffler sReshuffle).drawPile : Multiset Card) =
        ((sReshuffle.discardPile.dropLast : Multiset Card) +
          (sReshuffle.drawPile : Multiset Card)) := by
  refine ⟨rfl, rfl, ?_⟩
  decide

/-- `isValidPlay` only reads the player hands, the current player index and
the last played card. -/
theorem isValidPlay_congr (s₁ s₂ : HS.HandState) (c : Card)
    (h1 : s₁.playerHands = s₂.playerHands)
    (h2 : s₁.currentPlayerIndex = s₂.currentPlayerIndex)
    (h3 : s₁.lastPlayedCard = s₂.lastPlayedCard) :
    HS.isValidPlay s₁ c = HS.isValidPlay s₂ c := by
  unfold HS.isValidPlay
  rw [h1, h2, h3]

/-- `reshuffleDeck` is the original state with only the two piles replaced. -/
theorem reshuffleDeck_eq (sh : Shuffler) (s : HS.HandState) :
    HS.reshuffleDeck sh s =
      { s with drawPile := (HS.reshuffleDeck sh s).drawPile,
               discardPile := (HS.reshuffleDeck sh s).discardPile } := by
  unfold HS.reshuffleDeck
  split
  · rfl
  · split
    · rfl
    · rfl

/-- C6. `draw` deals exactly one card — the head `c` of the draw pile, after
an automatic reshuffle when the pile is empty — to the current player's hand,
and the turn stays with that player exactly when the drawn card is
immediately legal to play (checked against the updated hand `afterDraw`),
otherwise it advances one step in the current direction. -/
theorem draw_deals_one_card (sh : Shuffler) (s : HS.HandState) (c : Card) (rest : List Card)
    (hE : s.hasEnded = false)
    (hcur : s.currentPlayerIndex < s.playerHands.length)
    (hpile : (if s.drawPile.isEmpty then (HS.reshuffleDeck sh s).drawPile else s.drawPile)
      = c :: rest) :
    ∃ s', HS.draw sh s = .ok s' ∧
      s'.playerHands.getD s.currentPlayerIndex [] =
        (s.playerHands.getD s.currentPlayerIndex []) ++ [c] ∧
      s'.drawPile = rest ∧
      (HS.isValidPlay (afterDraw s c rest) c = true →
        s'.currentPlayerIndex = s.currentPlayerIndex) ∧
      (HS.isValidPlay (afterDraw s c rest) c = false →
        s'.currentPlayerIndex = stepIdx s.currentPlayerIndex s.direction s.players.length) := by
  unfold HS.draw
  rw [if_neg (by simp [hE])]
  by_cases hemp : s.drawPile.isEmpty = true
  · -- empty draw pile: the reshuffled pile is dealt from
    rw [if_pos hemp] at hpile
    have hdp : s.drawPile = [] := List.isEmpty_iff.mp hemp
    have hs0 : ({ s with drawPile := [] } : HS.HandState) = s := by rw [← hdp]
    rw [hdp]
    dsimp only [dealCard]
    rw [hs0, hpile]
    dsimp only
    rw [reshuffleDeck_eq sh s]
    dsimp only
    have hcv : HS.isValidPlay
        { s with discardPile := (HS.reshuffleDeck sh s).discardPile,
                 drawPile := rest,
                 playerHands := (s.playerHands.set s.currentPlayerIndex
                   ((s.playerHands.getD s.currentPlayerIndex []) ++ [c])) } c
        = HS.isValidPlay (afterDraw s c rest) c :=
      isValidPlay_congr _ _ c rfl rfl rfl
    rw [hcv]
    by_cases hvp : HS.isValidPlay (afterDraw s c rest) c = true
    · rw [if_pos hvp]
      refine ⟨_, rfl, ?_, rfl, fun _ => rfl, fun hf => ?_⟩
      · dsimp only
        rw [List.getD_eq_getElem?_getD, List.getElem?_set_self hcur]
        rfl
      · rw [hvp] at hf
        exact absurd hf (by simp)
    · rw [if_neg hvp]
      refine ⟨_, rfl, ?_, rfl, fun ht => absurd ht hvp, fun _ => rfl⟩
      dsimp only [HS.nextTurn]
      rw [List.getD_eq_getElem?_getD, List.getElem?_set_self hcur]
      rfl
  · -- non-empty draw pile
    rw [if_neg hemp] at hpile
    rw [hpile]
    dsimp only [dealCard]
    by_cases hvp : HS.isValidPlay (afterDraw s c rest) c = true
    · rw [if_pos hvp]
      refine ⟨_, rfl, ?_, rfl, fun _ => rfl, fun hf => ?_⟩
      · dsimp only
        rw [List.getD_eq_getElem?_getD, List.getElem?_set_self hcur]
        rfl
      · rw [hvp] at hf
        exact absurd hf (by simp)
    · rw [if_neg hvp]
      refine ⟨_, rfl, ?_, rfl, fun ht => absurd ht hvp, fun _ => rfl⟩
      dsimp only [HS.nextTurn]
      rw [List.getD_eq_getElem?_getD, List.getElem?_set_self hcur]
      rfl

/-- C6 witness: drawing at `sCatchable` deals the red 2 to player 1 and, the
red 2 being immediately playable on the red top card, leaves the turn with
player 1. -/
theorem draw_deals_one_card_witness :
    ∃ s', HS.draw idShuffler sCatchable = .ok s' ∧
      s'.playerHands.getD sCatchable.currentPlayerIndex [] =
        (sCatchable.playerHands.getD sCatchable.currentPlayerIndex []) ++ [cardR2] ∧
      s'.drawPile = [cardB3, cardB7, cardR2] ∧
      (HS.isValidPlay (afterDraw sCatchable cardR2 [cardB3, cardB7, cardR2]) cardR2 = true →
        s'.currentPlayerIndex = sCatchable.currentPlayerIndex) ∧
      (HS.isValidPlay (afterDraw sCatchable cardR2 [cardB3, cardB7, cardR2]) cardR2 = false →
        s'.currentPlayerIndex = stepIdx sCatchable.currentPlayerIndex sCatchable.direction
          sCatchable.players.length) :=
  draw_deals_one_card idShuffler sCatchable cardR2 [cardB3, cardB7, cardR2] rfl (by decide) rfl

/-- C7 counterexample. The claim says a failing precondition — including
"hand ended" — makes `catchUnoFailure` return the unchanged state paired with
`false` without throwing.  On the ended state `sEnded` (accused index 0 is
structurally valid, and accused player 1 even holds exactly one card) the
code instead throws `The hand has ended`. -/
theorem catch_uno_throws_when_ended :
    HS.catchUnoFailure idShuffler sEnded 0 1 = .error ("The hand has ended") := rfl

/-- C7 as amended: for an in-progress hand and a structurally valid accused
index, every failing precondition (accused does not hold exactly one card,
accused already recorded in the uno set, or the player in turn is not the
player immediately following the accused) makes `catchUnoFailure` return the
unchanged state paired with `false` — it throws only when the hand has ended
or the accused index is out of range. -/
theorem catch_uno_failed_preconditions_return_false (sh : Shuffler) (s : HS.HandState)
    (accuser accused : Nat)
    (hE : s.hasEnded = false) (hacc : accused < s.players.length)
    (hfail : accused ∈ s.unoSaid ∨ (s.playerHands.getD accused []).length ≠ 1 ∨
      s.currentPlayerIndex ≠ stepIdx accused s.direction s.players.length) :
    HS.catchUnoFailure sh s accuser accused = .ok (s, false) := by
  unfold HS.catchUnoFailure
  rw [if_neg (by simp [hE]), if_neg (by omega)]
  by_cases hq : accused ∈ s.unoSaid ∨ (s.playerHands.getD accused []).length ≠ 1
  · rw [if_pos hq]
  · rw [if_neg hq]
    have ht : s.currentPlayerIndex ≠ stepIdx accused s.direction s.players.length := by
      rcases hfail with h | h | h
      · exact absurd (Or.inl h) hq
      · exact absurd (Or.inr h) hq
      · exact h
    simp only []
    rw [if_neg ht]

/-- C7 witness: at `sReshuffle` accusing player 0 fails (the player in turn
is not the player after the accused) and the call returns the state unchanged
with `false`. -/
theorem catch_uno_failed_preconditions_return_false_witness :
    HS.catchUnoFailure idShuffler sReshuffle 1 0 = .ok (sReshuffle, false) :=
  catch_uno_failed_preconditions_return_false idShuffler sReshuffle 1 0 rfl (by decide)
    (Or.inr (Or.inr (by decide)))

/-- C4. With a real current color (`lastPlayedCard` has color `col`) and a
colorless WILD_DRAW card in the current player's hand, the play is legal
exactly when the player holds no card of color `col`; and whenever the player
does hold such a card, `play` on that wild-draw index fails with the
`Invalid play` error. -/
theorem wild_draw_legal_iff_no_current_color (sh : Shuffler) (s : HS.HandState) (i : Nat)
    (card last : Card) (col : Color) (chosenColor : Option Color)
    (hE : s.hasEnded = false)
    (hlast : s.lastPlayedCard = some last) (hcol : last.color = some col)
    (hget : (s.playerHands.getD s.currentPlayerIndex []).get? i = some card)
    (htype : card.type = CardType.WILD_DRAW) (hcard : card.color = none) :
    (HS.isValidPlay s card = true ↔
      ∀ c ∈ s.playerHands.getD s.currentPlayerIndex [], c.color ≠ some col) ∧
    ((∃ c ∈ s.playerHands.getD s.currentPlayerIndex [], c.color = some col) →
      HS.play sh s i chosenColor = .error ("Invalid play")) := by
  have hiff : HS.isValidPlay s card = true ↔
      ∀ c ∈ s.playerHands.getD s.currentPlayerIndex [], c.color ≠ some col := by
    unfold HS.isValidPlay
    rw [hlast]
    dsimp only
    rw [if_neg (by simp [htype]), if_pos htype]
    rw [Bool.not_eq_eq_eq_not, Bool.not_true, List.any_eq_false]
    constructor
    · intro h c hc hcc
      have hne : c ≠ card := by
        intro he
        rw [he, hcard] at hcc
        exact Option.noConfusion hcc
      have := h c hc
      simp [hne, hcol] at this
      exact this hcc
    · intro h c hc
      simp only [Bool.and_eq_true, decide_eq_true_eq, not_and, hcol]
      intro _ hcc
      exact h c hc hcc
  refine ⟨hiff, ?_⟩
  rintro ⟨c, hc, hcc⟩
  have hv : HS.isValidPlay s card = false := by
    rw [Bool.eq_false_iff]
    intro ht
    exact (hiff.mp ht) c hc hcc
  unfold HS.play
  rw [if_neg (by simp [hE])]
  simp only [hget]
  rw [if_pos (by simp [hv])]

/-- C4 witness: at `sWild` (no red card in hand) the wild-draw is legal; at
`sWildBlocked` (a red 2 in hand) it is not, and playing it raises the
`Invalid play` error. -/
theorem wild_draw_legal_iff_no_current_color_witness :
    HS.isValidPlay sWild cardWD = true ∧
    HS.play idShuffler sWildBlocked 0 (some Color.BLUE) = .error ("Invalid play") := by
  constructor
  · exact (wild_draw_legal_iff_no_current_color idShuffler sWild 0 cardWD cardR1 Color.RED
      (some Color.BLUE) rfl rfl rfl rfl rfl rfl).1.mpr (by decide)
  · exact (wild_draw_legal_iff_no_current_color idShuffler sWildBlocked 0 cardWD cardR1
      Color.RED (some Color.BLUE) rfl rfl rfl rfl rfl rfl).2 ⟨cardR2, by decide, rfl⟩

/-- C5. Legally playing a REVERSE without emptying the hand flips the
direction; with exactly two players the turn returns to the player who played
it, otherwise it passes to the next player under the flipped direction. -/
theorem reverse_play_flips_direction (sh : Shuffler) (s : HS.HandState) (i : Nat)
    (card : Card)
    (hE : s.hasEnded = false)
    (hget : (s.playerHands.getD s.currentPlayerIndex []).get? i = some card)
    (htype : card.type = CardType.REVERSE)
    (hvalid : HS.isValidPlay s card = true)
    (hlen : 2 ≤ (s.playerHands.getD s.currentPlayerIndex []).length)
    (hcur : s.currentPlayerIndex < s.players.length)
    (hdir : s.direction = 1 ∨ s.direction = -1) :
    ∃ s', HS.play sh s i none = .ok (s', card) ∧
      s'.direction = -s.direction ∧
      (s.players.length = 2 → s'.currentPlayerIndex = s.currentPlayerIndex) ∧
      (s.players.length ≠ 2 →
        s'.currentPlayerIndex = stepIdx s.currentPlayerIndex (-s.direction) s.players.length) := by
  obtain ⟨ty, co, nu⟩ := card
  simp only at htype
  subst htype
  have hlt : i < (s.playerHands.getD s.currentPlayerIndex []).length :=
    (List.get?_eq_some.mp hget).1
  have hne0 : ¬ ((s.playerHands.getD s.currentPlayerIndex []).eraseIdx i).length = 0 := by
    rw [List.length_eraseIdx, if_pos hlt]
    omega
  unfold HS.play
  rw [if_neg (by simp [hE])]
  simp only [hget]
  rw [if_neg (by simp [hvalid]), if_neg (by simp), if_neg (by simp)]
  rw [if_neg hne0]
  have hmul : s.direction * -1 = -s.direction := by ring
  refine ⟨_, rfl, ?_, ?_, ?_⟩
  · unfold HS.applyCardEffect HS.nextTurn
    dsimp only
    rw [if_neg (by simp : ¬ (CardType.REVERSE = CardType.DRAW ∨
      CardType.REVERSE = CardType.WILD_DRAW))]
    by_cases hN : s.players.length = 2
    · rw [if_pos hN]
      dsimp only
      rw [hmul]
    · rw [if_neg hN]
      dsimp only
      rw [hmul]
  · intro hN
    unfold HS.applyCardEffect HS.nextTurn
    dsimp only
    rw [if_neg (by simp : ¬ (CardType.REVERSE = CardType.DRAW ∨
      CardType.REVERSE = CardType.WILD_DRAW)), if_pos hN]
    dsimp only
    rw [hmul, hN]
    exact stepIdx_two_cycle s.currentPlayerIndex (-s.direction)
      (by rcases hdir with h | h <;> simp [h]) (by omega)
  · intro hN
    unfold HS.applyCardEffect HS.nextTurn
    dsimp only
    rw [if_neg (by simp : ¬ (CardType.REVERSE = CardType.DRAW ∨
      CardType.REVERSE = CardType.WILD_DRAW)), if_neg hN]
    dsimp only
    rw [hmul]

/-- C5 witness: at the two-player state `sRev` playing the red REVERSE flips
the direction and returns the turn to player 0; at the three-player `sRev3`
the turn passes to player 2, the next player under the flipped direction. -/
theorem reverse_play_flips_direction_witness :
    (∃ s', HS.play idShuffler sRev 0 none = .ok (s', cardRRev) ∧
      s'.direction = -sRev.direction ∧
      (sRev.players.length = 2 → s'.currentPlayerIndex = sRev.currentPlayerIndex) ∧
      (sRev.players.length ≠ 2 →
        s'.currentPlayerIndex = stepIdx sRev.currentPlayerIndex (-sRev.direction)
          sRev.players.length)) ∧
    (∃ s', HS.play idShuffler sRev3 0 none = .ok (s', cardRRev) ∧
      s'.direction = -sRev3.direction ∧
      (sRev3.players.length = 2 → s'.currentPlayerIndex = sRev3.currentPlayerIndex) ∧
      (sRev3.players.length ≠ 2 →
        s'.currentPlayerIndex = stepIdx sRev3.currentPlayerIndex (-sRev3.direction)
          sRev3.players.length)) := by
  constructor
  · exact reverse_play_flips_direction idShuffler sRev 0 cardRRev rfl rfl rfl (by decide)
      (by decide) (by decide) (Or.inl rfl)
  · exact reverse_play_flips_direction idShuffler sRev3 0 cardRRev rfl rfl rfl (by decide)
      (by decide) (by decide) (Or.inl rfl)

/-- C10. A successful `catchUnoFailure` records the accused in the uno set
and keeps the player in turn unchanged; repeating the accusation against the
resulting state returns it unchanged with `false`, and more generally any
later state of the same hand (the accused stays in the uno set, the hand not
ended) answers the same accusation with `false` — the accused is never
penalized twice. -/
theorem catch_uno_success_marks_accused (sh : Shuffler) (s s' : HS.HandState)
    (accuser accused : Nat)
    (hcatch : HS.catchUnoFailure sh s accuser accused = .ok (s', true)) :
    accused ∈ s'.unoSaid ∧
    s'.currentPlayerIndex = s.currentPlayerIndex ∧
    HS.catchUnoFailure sh s' accuser accused = .ok (s', false) ∧
    (∀ t : HS.HandState, t.hasEnded = false → accused < t.players.length →
      accused ∈ t.unoSaid → HS.catchUnoFailure sh t accuser accused = .ok (t, false)) := by
  have hlater : ∀ t : HS.HandState, t.hasEnded = false → accused < t.players.length →
      accused ∈ t.unoSaid → HS.catchUnoFailure sh t accuser accused = .ok (t, false) := by
    intro t htE htacc htmem
    unfold HS.catchUnoFailure
    rw [if_neg (by simp [htE]), if_neg (by omega), if_pos (Or.inl htmem)]
  unfold HS.catchUnoFailure at hcatch
  by_cases hE : s.hasEnded
  · rw [if_pos hE] at hcatch
    exact absurd hcatch (by simp)
  · rw [if_neg hE] at hcatch
    by_cases hb : s.players.length ≤ accused
    · rw [if_pos hb] at hcatch
      exact absurd hcatch (by simp)
    · rw [if_neg hb] at hcatch
      by_cases hq : accused ∈ s.unoSaid ∨ (s.playerHands.getD accused []).length ≠ 1
      · rw [if_pos hq] at hcatch
        simp at hcatch
      · rw [if_neg hq] at hcatch
        simp only [] at hcatch
        by_cases ht : s.currentPlayerIndex = stepIdx accused s.direction s.players.length
        · rw [if_pos ht] at hcatch
          simp only [Except.ok.injEq, Prod.mk.injEq, and_true] at hcatch
          subst hcatch
          have hpres := drawCards_preserves sh s 4
          refine ⟨Finset.mem_insert_self accused _, rfl, ?_, hlater⟩
          refine hlater _ ?_ ?_ (Finset.mem_insert_self accused _)
          · simpa [hpres.2.1] using Bool.not_eq_true _ ▸ hE
          · simpa [hpres.1] using Nat.lt_of_not_le hb
        · rw [if_neg ht] at hcatch
          simp at hcatch

/-- Folding the score reducer over a hand adds the spec-side card points. -/
theorem cardReducer_foldl (l : List Card) (a : Nat) :
    l.foldl cardReducer a = a + (l.map specCardPoints).sum := by
  induction l generalizing a with
  | nil => simp
  | cons c t ih =>
    rw [List.foldl_cons, List.map_cons, List.sum_cons, ih]
    have hc : cardReducer a c = a + specCardPoints c := by
      cases c with
      | mk ty col num => cases ty <;> simp [cardReducer, specCardPoints]
    rw [hc]
    omega

/-- The outer score fold equals the sum over the non-winning entries. -/
theorem score_foldl_aux (w : Nat) (l : List (Nat × List Card)) (a : Nat) :
    l.foldl
      (fun total p => if some w = some p.1 then total else total + p.2.foldl cardReducer 0) a
      = a + ((l.filter (fun p => decide (p.1 ≠ w))).map
          (fun p => (p.2.map specCardPoints).sum)).sum := by
  induction l generalizing a with
  | nil => simp
  | cons p t ih =>
    rw [List.foldl_cons]
    by_cases hp : p.1 = w
    · rw [if_pos (by rw [hp]), ih]
      have hf : (p :: t).filter (fun p => decide (p.1 ≠ w)) =
          t.filter (fun p => decide (p.1 ≠ w)) := by
        simp [List.filter_cons, hp]
      rw [hf]
    · rw [if_neg (by simpa using fun he => hp he.symm), ih]
      have hf : (p :: t).filter (fun p => decide (p.1 ≠ w)) =
          p :: t.filter (fun p => decide (p.1 ≠ w)) := by
        simp [List.filter_cons, hp]
      rw [hf, List.map_cons, List.sum_cons, cardReducer_foldl]
      omega

/-- C8. `score` is `undefined` (none) while the hand is in progress; once the
hand has ended with a winner it is the sum over all non-winning players'
remaining cards, valuing NUMBERED cards at their number, SKIP / REVERSE /
DRAW at 20 and WILD / WILD_DRAW at 50 (the spec-side `specScore`). -/
theorem score_spec (s : HS.HandState) :
    (s.hasEnded = false → HS.score s = none) ∧
    (∀ w : Nat, s.hasEnded = true → s.winner = some w →
      HS.score s = some (specScore s w)) := by
  constructor
  · intro hE
    unfold HS.score
    rw [if_neg (by simp [hE])]
  · intro w hE hw
    unfold HS.score
    rw [if_pos (by simp [hE])]
    unfold HS.calculateScore
    rw [if_neg (by simp [hE, hw])]
    have hbridge :
        s.playerHands.enum.foldl
          (fun total p =>
            if s.winner = some p.1 then total
            else
              total + p.2.foldl
                (fun cardTotal card =>
                  match card.type with
                  | CardType.NUMBERED => cardTotal + card.number.getD 0
                  | CardType.SKIP => cardTotal + 20
                  | CardType.REVERSE => cardTotal + 20
                  | CardType.DRAW => cardTotal + 20
                  | CardType.WILD => cardTotal + 50
                  | CardType.WILD_DRAW => cardTotal + 50) 0) 0
          = s.playerHands.enum.foldl
              (fun total p =>
                if some w = some p.1 then total else total + p.2.foldl cardReducer 0) 0 := by
      rw [hw]
      rfl
    rw [hbridge, score_foldl_aux]
    unfold specScore
    simp

/-- C8 witness: at the ended state `sEnded` (winner 0, player 1 holding the
blue 7) the score is 7, and the in-progress state `sCatchable` has no
score. -/
theorem score_spec_witness :
    HS.score sCatchable = none ∧ HS.score sEnded = some 7 := by
  constructor
  · exact (score_spec sCatchable).1 rfl
  · exact ((score_spec sEnded).2 0 rfl rfl).trans (by decide)

/-- C9. The `canPlay` query is a total boolean function: whenever the hand
has ended or the integer card index is out of bounds for the current
player's hand it answers `false` instead of raising an error. -/
theorem canPlay_false_on_ended_or_out_of_bounds (s : HS.HandState) (i : Int)
    (h : s.hasEnded = true ∨ i < 0 ∨
      ((s.playerHands.getD s.currentPlayerIndex []).length : Int) ≤ i) :
    HS.canPlay s i = false := by
  unfold HS.canPlay
  by_cases hE : s.hasEnded
  · simp [hE]
  · rw [if_neg hE]
    have hoob : i < 0 ∨
        ((s.playerHands.getD s.currentPlayerIndex []).length : Int) ≤ i := by
      rcases h with h | h
      · exact absurd h hE
      · exact h
    simp only []
    rw [if_pos hoob]

/-- C9 witness: on the ended state `sEnded` and on an out-of-bounds index of
the in-progress state `sCatchable`, `canPlay` answers `false`. -/
theorem canPlay_false_on_ended_or_out_of_bounds_witness :
    HS.canPlay sEnded 0 = false ∧ HS.canPlay sCatchable (-1) = false ∧
    HS.canPlay sCatchable 2 = false := by
  refine ⟨?_, ?_, ?_⟩
  · exact canPlay_false_on_ended_or_out_of_bounds sEnded 0 (Or.inl rfl)
  · exact canPlay_false_on_ended_or_out_of_bounds sCatchable (-1) (Or.inr (Or.inl (by decide)))
  · exact canPlay_false_on_ended_or_out_of_bounds sCatchable 2 (Or.inr (Or.inr (by decide)))

/-- C10 witness: the concrete valid catch of player 0 at `sCatchable`
produces `sCaught`; the theorem's conclusions instantiated there. -/
theorem catch_uno_success_marks_accused_witness :
    0 ∈ sCaught.unoSaid ∧
    sCaught.currentPlayerIndex = sCatchable.currentPlayerIndex ∧
    HS.catchUnoFailure idShuffler sCaught 1 0 = .ok (sCaught, false) := by
  have h := catch_uno_success_marks_accused idShuffler sCatchable sCaught 1 0 rfl
  exact ⟨h.1, h.2.1, h.2.2.1⟩

/-- `findIdx?` returns the first index satisfying the predicate. -/
theorem findIdx_eq_some_of_first {α : Type} (pr : α → Bool) (d : α) :
    ∀ (l : List α) (i : Nat), i < l.length →
      (∀ j, j < i → pr (l.getD j d) = false) →
      pr (l.getD i d) = true →
      l.findIdx? pr = some i := by
  intro l
  induction l with
  | nil => intro i hi; simp at hi
  | cons a t ih =>
    intro i hi hbefore hat
    cases i with
    | zero =>
      simp only [List.getD_cons_zero] at hat
      simp [List.findIdx?_cons, hat]
    | succ n =>
      have ha : pr a = false := by
        have := hbefore 0 (Nat.succ_pos n)
        simpa using this
      have hrec := ih n (by simpa using hi)
        (fun j hj => by simpa using hbefore (j + 1) (by omega))
        (by simpa using hat)
      simp [List.findIdx?_cons, ha, hrec]

/-- C3 counterexample. In `handState.ts`, playing a DRAW card as the only
card in hand ends the hand with the player as winner, but the card effect is
skipped: at `sLastDraw` the next player's hand and the draw pile are
untouched, while the claim requires the next player to have received the two
forced cards. -/
theorem handState_play_last_draw_skips_forced_draw :
    ((HS.play idShuffler sLastDraw 0 none).toOption.map
      (fun q => (q.1.hasEnded, q.1.winner, q.1.playerHands.getD 1 [], q.1.drawPile)))
      = some (true, some 0, [cardB7], [cardR2, cardB3]) := rfl

/-- C3 as amended, proved on the `hand.ts` variant: when the player in turn
legally plays a DRAW (k = 2) or WILD DRAW (k = 4) card that is their only
card, the hand ends with that player as winner and the next player in turn
order still receives the k forced cards.  (The `handState.ts` variant ends
the hand with the same winner but skips the forced draw.) -/
theorem hand_play_last_draw_ends_with_forced_draw
    (h : HandM.Hand) (p : Nat) (card : Card) (chosenColor : Option Color) (k : Nat)
    (hit : h.playerInTurn = some p)
    (hpc : h.playerCount = h.hands.length)
    (hp : p < h.hands.length)
    (hN : 2 ≤ h.playerCount)
    (hdir : h.direction = 1 ∨ h.direction = -1)
    (hhand : h.hands.getD p [] = [card])
    (htyp : (card.type = CardType.DRAW ∧ k = 2 ∧ card.color ≠ none ∧ chosenColor = none) ∨
      (card.type = CardType.WILD_DRAW ∧ k = 4 ∧ card.color = none ∧ chosenColor ≠ none))
    (hpile : k ≤ h.drawPile.length)
    (hcp : HandM.canPlay 0 h = true)
    (hend : HandM.hasEnded h = false) :
    ∃ h', HandM.play 0 chosenColor h = .ok h' ∧
      HandM.hasEnded h' = true ∧
      HandM.winner h' = some p ∧
      h'.hands.getD (stepIdx p h.direction h.playerCount) [] =
        (h.hands.getD (stepIdx p h.direction h.playerCount) []) ++ h.drawPile.take k := by
  have hplt : p < h.playerCount := by rw [hpc]; exact hp
  have htlt : stepIdx p h.direction h.playerCount < h.hands.length := by
    rw [← hpc]
    exact stepIdx_lt p h.playerCount h.direction (by omega)
  have htne : stepIdx p h.direction h.playerCount ≠ p :=
    stepIdx_ne p h.playerCount h.direction hdir hplt hN
  have hall : ∀ x ∈ h.hands, x.length ≠ 0 := by
    unfold HandM.hasEnded at hend
    rw [Bool.or_eq_false_iff] at hend
    have h2 := hend.2
    rw [List.any_eq_false] at h2
    intro x hx
    have := h2 x hx
    simpa using this
  have hg1 : ¬ ((card.type = CardType.WILD ∨ card.type = CardType.WILD_DRAW) ∧
      chosenColor = none) := by
    rcases htyp with ⟨hty, _, _, _⟩ | ⟨_, _, _, hch⟩
    · simp [hty]
    · rintro ⟨_, hc⟩
      exact hch hc
  have hg2 : ¬ (card.color ≠ none ∧ chosenColor ≠ none) := by
    rcases htyp with ⟨_, _, _, hch⟩ | ⟨_, _, hco, _⟩
    · rintro ⟨_, hc⟩
      exact hc hch
    · rintro ⟨hc, _⟩
      exact hc hco
  have hdw : card.type = CardType.DRAW ∨ card.type = CardType.WILD_DRAW := by
    rcases htyp with ⟨hty, _, _, _⟩ | ⟨hty, _, _, _⟩
    · exact Or.inl hty
    · exact Or.inr hty
  have hns : ¬ ((card.type = CardType.DRAW ∧ h.drawPile.length < 2) ∨
      (card.type = CardType.WILD_DRAW ∧ h.drawPile.length < 4)) := by
    rcases htyp with ⟨hty, hk, _, _⟩ | ⟨hty, hk, _, _⟩ <;>
      rintro (⟨h1, h2⟩ | ⟨h1, h2⟩)
    · omega
    · rw [hty] at h1
      exact absurd h1 (by decide)
    · rw [hty] at h1
      exact absurd h1 (by decide)
    · omega
  have hcc : (if card.type = CardType.DRAW then 2 else 4) = k := by
    rcases htyp with ⟨hty, hk, _, _⟩ | ⟨hty, hk, _, _⟩
    · rw [if_pos hty, hk]
    · rw [if_neg (by simp [hty]), hk]
  have hget0 : ((h.hands.set p ([] : List Card)).getD p []) = [] := by
    rw [List.getD_eq_getElem?_getD, List.getElem?_set_self hp]
    rfl
  unfold HandM.play
  rw [if_neg (by simp [hcp]), hit]
  dsimp only
  simp only [hhand]
  dsimp only [Int.toNat, List.get?, List.eraseIdx]
  rw [if_neg hg1, if_neg hg2, if_neg hns, if_neg hns,
    if_pos (And.intro hdw (by rw [hget0]; rfl))]
  rw [hcc]
  refine ⟨_, rfl, ?_, ?_, ?_⟩
  · simp [HandM.hasEnded]
  · unfold HandM.winner
    dsimp only
    apply findIdx_eq_some_of_first _ ([] : List Card)
    · rw [List.length_set, List.length_set]
      exact hp
    · intro j hj
      by_cases hjt : j = stepIdx p h.direction h.playerCount
      · subst hjt
        rw [List.getD_eq_getElem?_getD,
          List.getElem?_set_self (by rw [List.length_set]; exact htlt)]
        have hne : ((h.hands.set p ([] : List Card)).getD
            (stepIdx p h.direction h.playerCount) []) =
            h.hands.getD (stepIdx p h.direction h.playerCount) [] := by
          rw [List.getD_eq_getElem?_getD, List.getElem?_set_ne (fun he => htne he.symm),
            ← List.getD_eq_getElem?_getD]
        have hmem : h.hands.getD (stepIdx p h.direction h.playerCount) [] ∈ h.hands := by
          rw [List.getD_eq_getElem _ _ htlt]
          exact List.getElem_mem htlt
        have hlen := hall _ hmem
        simp only [Option.getD_some]
        rw [hne]
        simp only [decide_eq_false_iff_not, List.length_append]
        omega
      · have hjp : j ≠ p := by omega
        rw [List.getD_eq_getElem?_getD, List.getElem?_set_ne (fun he => hjt he.symm),
          List.getElem?_set_ne (fun he => hjp he.symm), ← List.getD_eq_getElem?_getD]
        have hjlt : j < h.hands.length := by omega
        have hmem : h.hands.getD j [] ∈ h.hands := by
          rw [List.getD_eq_getElem _ _ hjlt]
          exact List.getElem_mem hjlt
        have hlen := hall _ hmem
        simp only [decide_eq_false_iff_not]
        exact hlen
    · rw [List.getD_eq_getElem?_getD,
        List.getElem?_set_ne (fun he => htne he), ← List.getD_eq_getElem?_getD,
        hget0]
      simp
  · dsimp only
    rw [List.getD_eq_getElem?_getD,
      List.getElem?_set_self (by rw [List.length_set]; exact htlt)]
    have hne : ((h.hands.set p ([] : List Card)).getD
        (stepIdx p h.direction h.playerCount) []) =
        h.hands.getD (stepIdx p h.direction h.playerCount) [] := by
      rw [List.getD_eq_getElem?_getD, List.getElem?_set_ne (fun he => htne he.symm),
        ← List.getD_eq_getElem?_getD]
    simp only [Option.getD_some]
    rw [hne]

/-- C3 witness (for the amended theorem): at `hLastDraw`, player 0 plays the
red DRAW as their last card; the hand ends with player 0 as winner and
player 1 still receives the two forced cards. -/
theorem hand_play_last_draw_ends_with_forced_draw_witness :
    ∃ h', HandM.play 0 none hLastDraw = .ok h' ∧
      HandM.hasEnded h' = true ∧
      HandM.winner h' = some 0 ∧
      h'.hands.getD (stepIdx 0 hLastDraw.direction hLastDraw.playerCount) [] =
        (hLastDraw.hands.getD (stepIdx 0 hLastDraw.direction hLastDraw.playerCount) []) ++
          hLastDraw.drawPile.take 2 :=
  hand_play_last_draw_ends_with_forced_draw hLastDraw 0 cardRDraw none 2 rfl rfl
    (by decide) (by decide) (Or.inl rfl) rfl
    (Or.inl ⟨rfl, rfl, by decide, rfl⟩) (by decide) rfl rfl

end Uno
